import Mathlib

/-!
# Executive Decision Maker — state machine embedding

Shallow embedding of the application state machine and button renderer of
`src/main.rs` (a terminal re-creation of the Radio Shack "Executive Decision
Maker").  Instants are modelled as natural numbers counting milliseconds;
`rand::thread_rng().gen_range(0..n)` draws are modelled by a stream of raw
natural numbers reduced modulo `n`.  The rejection loops in `ask` and `tick`
(redraw while the drawn index equals the excluded one) terminate exactly when
the stream eventually produces a value different from the excluded index; that
termination condition is carried as an explicit hypothesis (`FairDraws`), and
the loop result is the first conforming draw (`Nat.find`).
-/

/-- The six possible answers (`ANSWERS` in `src/main.rs`). -/
def ANSWERS : List String :=
  ["DEFINITELY", "FORGET IT", "ASK AGAIN", "NEVER", "POSSIBLY", "WHY NOT"]

def ANIMATION_DURATION_MS : Nat := 2000

def ANIMATION_STEP_MS : Nat := 120

def ANSWER_FLASH_MS : Nat := 1500

def TICK_RATE_MS : Nat := 50

/-- Presentation state (`enum State` in `src/main.rs`).  Instants are `Nat`
milliseconds. -/
inductive State where
  | Idle : State
  | Animating (final_index current_index end_at next_switch : Nat) : State
  | Showing (index until_ : Nat) : State
  deriving DecidableEq, Repr

/-- The application record (`struct App` in `src/main.rs`). -/
structure App where
  state : State
  help_visible : Bool
  last_answer : Option Nat
  deriving DecidableEq, Repr

/-- Embedding of `App::new`. -/
def App.new : App :=
  { state := State.Idle, help_visible := false, last_answer := none }

/-- Model of `rng.gen_range(0..n)` applied to a raw draw: uniform support
`{0, …, n-1}` is captured by reduction modulo `n`. -/
def gen_range (n raw : Nat) : Nat := raw % n

/-- A draw stream eventually produces a value different from any given one
(mod `ANSWERS.length`).  This is exactly the condition under which the
rejection loops in `App::ask` and `App::tick` terminate; for a uniform PRNG it
holds with probability one. -/
def FairDraws (draws : Nat → Nat) : Prop :=
  ∀ x : Nat, ∃ k : Nat, gen_range ANSWERS.length (draws k) ≠ x

/-- Result of the rejection loop `while idx == excluded { idx = gen_range … }`:
the first draw of the stream whose value differs from `excluded`. -/
def drawDistinct (draws : Nat → Nat) (excluded : Nat)
    (h : ∃ k : Nat, gen_range ANSWERS.length (draws k) ≠ excluded) : Nat :=
  gen_range ANSWERS.length (draws (Nat.find h))

/-- Embedding of `App::ask`: draw a final index, draw a distinct starting index (when
`ANSWERS.len() > 1`), clear `last_answer`, start the animation.  `now` is the
instant read from the clock, `finalRaw` the raw draw for `final_idx`, `draws`
the stream feeding the rejection loop for `current_idx`. -/
def App.ask (a : App) (now finalRaw : Nat) (draws : Nat → Nat)
    (hd : FairDraws draws) : App :=
  { a with
    last_answer := none
    state := State.Animating
      (gen_range ANSWERS.length finalRaw)
      (if 1 < ANSWERS.length then
        drawDistinct draws (gen_range ANSWERS.length finalRaw)
          (hd (gen_range ANSWERS.length finalRaw))
      else gen_range ANSWERS.length finalRaw)
      (now + ANIMATION_DURATION_MS)
      now }

/-- Embedding of `App::tick`: advance the state machine to instant `now`.  `draws` feeds
the shuffle-step rejection loop (used only in the `Animating` shuffle
branch). -/
def App.tick (a : App) (now : Nat) (draws : Nat → Nat)
    (hd : FairDraws draws) : App :=
  match a.state with
  | State.Idle => a
  | State.Animating final_index current_index end_at next_switch =>
      if end_at ≤ now then
        { a with
          last_answer := some final_index
          state := State.Showing final_index (now + ANSWER_FLASH_MS) }
      else if next_switch ≤ now then
        { a with
          state := State.Animating final_index
            (if 1 < ANSWERS.length then
              drawDistinct draws current_index (hd current_index)
            else gen_range ANSWERS.length (draws 0))
            end_at
            (now + ANIMATION_STEP_MS) }
      else a
  | State.Showing _ until_ =>
      if until_ ≤ now then { a with state := State.Idle } else a

/-- Embedding of `App::toggle_help`. -/
def App.toggle_help (a : App) : App :=
  { a with help_visible := !a.help_visible }

/-- Key codes the program distinguishes (`crossterm::event::KeyCode`, with the
variants `App::on_key` never names collapsed into `Other`). -/
inductive KeyCode where
  | Enter : KeyCode
  | Esc : KeyCode
  | Char (c : Char) : KeyCode
  | Other : KeyCode
  deriving DecidableEq, Repr

/-- Modifier bitset (`crossterm::event::KeyModifiers`). -/
structure KeyModifiers where
  shift : Bool
  control : Bool
  alt : Bool
  deriving DecidableEq, Repr

/-- Press/release discrimination (`crossterm::event::KeyEventKind`). -/
inductive KeyEventKind where
  | Press : KeyEventKind
  | Repeat : KeyEventKind
  | Release : KeyEventKind
  deriving DecidableEq, Repr

/-- A key event (`crossterm::event::KeyEvent`, restricted to the fields the
program can observe). -/
structure KeyEvent where
  code : KeyCode
  modifiers : KeyModifiers
  kind : KeyEventKind
  deriving DecidableEq, Repr

/-- Embedding of `App::on_key`: returns the updated record and the terminate flag.  The
clock instant and draw stream are passed through for the `ask()` call in the
`Enter`/`Space` branch. -/
def App.on_key (a : App) (key : KeyEvent) (now finalRaw : Nat)
    (draws : Nat → Nat) (hd : FairDraws draws) : App × Bool :=
  if key.modifiers.control = true ∧
      (key.code = KeyCode.Char 'c' ∨ key.code = KeyCode.Char 'C') then
    (a, true)
  else if key.modifiers.control = true ∧
      (key.code = KeyCode.Char 'h' ∨ key.code = KeyCode.Char 'H') then
    (a.toggle_help, false)
  else
    match key.code with
    | KeyCode.Esc =>
        if a.help_visible then ({ a with help_visible := false }, false)
        else (a, true)
    | KeyCode.Char c =>
        if c = 'q' ∨ c = 'Q' then
          if a.help_visible then ({ a with help_visible := false }, false)
          else (a, true)
        else if c = ' ' then
          if a.help_visible then ({ a with help_visible := false }, false)
          else (a.ask now finalRaw draws hd, false)
        else (a, false)
    | KeyCode.Enter =>
        if a.help_visible then ({ a with help_visible := false }, false)
        else (a.ask now finalRaw draws hd, false)
    | KeyCode.Other => (a, false)

/-- One step of the event loop's interaction with the state machine: either a
`tick` at some instant, or a key event dispatched through `on_key` (which may
invoke `ask`). -/
inductive Step : App → App → Prop where
  | tick (a : App) (now : Nat) (draws : Nat → Nat) (hd : FairDraws draws) :
      Step a (a.tick now draws hd)
  | key (a : App) (k : KeyEvent) (now finalRaw : Nat) (draws : Nat → Nat)
      (hd : FairDraws draws) :
      Step a (a.on_key k now finalRaw draws hd).1

/-- A rendered answer button: its label and whether it is drawn in the active
(highlight) style — the two inputs `render_buttons` passes to
`draw_button`. -/
structure ButtonCell where
  text : String
  active : Bool
  deriving DecidableEq, Repr

/-- The `active_index` computation inside `render_buttons`. -/
def active_index (s : State) : Option Nat :=
  match s with
  | State.Animating _ current_index _ _ => some current_index
  | State.Showing index _ => some index
  | State.Idle => none

/-- Embedding of `render_buttons`: the six `draw_button` calls, in grid order — cell `i`
shows `ANSWERS[i]` and is active iff `active_index == Some(i)`. -/
def render_buttons (a : App) : List ButtonCell :=
  [ { text := ANSWERS[0]!, active := active_index a.state == some 0 },
    { text := ANSWERS[1]!, active := active_index a.state == some 1 },
    { text := ANSWERS[2]!, active := active_index a.state == some 2 },
    { text := ANSWERS[3]!, active := active_index a.state == some 3 },
    { text := ANSWERS[4]!, active := active_index a.state == some 4 },
    { text := ANSWERS[5]!, active := active_index a.state == some 5 } ]

/-! ## Helper lemmas -/

theorem gen_range_lt (raw : Nat) :
    gen_range ANSWERS.length raw < ANSWERS.length :=
  Nat.mod_lt raw (by decide)

theorem drawDistinct_ne (draws : Nat → Nat) (x : Nat)
    (h : ∃ k : Nat, gen_range ANSWERS.length (draws k) ≠ x) :
    drawDistinct draws x h ≠ x :=
  Nat.find_spec h

theorem drawDistinct_lt (draws : Nat → Nat) (x : Nat)
    (h : ∃ k : Nat, gen_range ANSWERS.length (draws k) ≠ x) :
    drawDistinct draws x h < ANSWERS.length :=
  gen_range_lt _

theorem drawDistinct_first (draws : Nat → Nat) (x : Nat)
    (h : ∃ k : Nat, gen_range ANSWERS.length (draws k) ≠ x)
    (h0 : gen_range ANSWERS.length (draws 0) ≠ x) :
    drawDistinct draws x h = gen_range ANSWERS.length (draws 0) := by
  unfold drawDistinct
  rw [(Nat.find_eq_zero h).mpr h0]

theorem fairDraws_id : FairDraws (fun k => k) := by
  intro x
  by_cases hx : x = 0
  · exact ⟨1, by simp [gen_range, ANSWERS, hx]⟩
  · exact ⟨0, by simpa [gen_range, ANSWERS] using Ne.symm hx⟩

theorem fairDraws_pair (f : Nat → Nat)
    (h1 : gen_range ANSWERS.length (f 1) = 1)
    (h2 : gen_range ANSWERS.length (f 2) = 2) : FairDraws f := by
  intro x
  by_cases hx : x = 1
  · exact ⟨2, by rw [h2, hx]; decide⟩
  · exact ⟨1, by rw [h1]; exact fun hc => hx hc.symm⟩

theorem ask_eq (a : App) (now finalRaw : Nat) (draws : Nat → Nat)
    (hd : FairDraws draws) :
    a.ask now finalRaw draws hd =
      { a with
        last_answer := none
        state := State.Animating
          (gen_range ANSWERS.length finalRaw)
          (drawDistinct draws (gen_range ANSWERS.length finalRaw)
            (hd (gen_range ANSWERS.length finalRaw)))
          (now + ANIMATION_DURATION_MS)
          now } := by
  unfold App.ask
  rw [if_pos (by decide : 1 < ANSWERS.length)]

theorem tick_idle (a : App) (now : Nat) (draws : Nat → Nat)
    (hd : FairDraws draws) (hs : a.state = State.Idle) :
    a.tick now draws hd = a := by
  unfold App.tick
  rw [hs]

theorem tick_animating_finish (a : App) (f c e ns now : Nat)
    (draws : Nat → Nat) (hd : FairDraws draws)
    (hs : a.state = State.Animating f c e ns) (hnow : e ≤ now) :
    a.tick now draws hd =
      { a with
        last_answer := some f
        state := State.Showing f (now + ANSWER_FLASH_MS) } := by
  unfold App.tick
  rw [hs]
  simp [hnow]

theorem tick_animating_shuffle (a : App) (f c e ns now : Nat)
    (draws : Nat → Nat) (hd : FairDraws draws)
    (hs : a.state = State.Animating f c e ns) (hns : ns ≤ now)
    (hend : now < e) :
    a.tick now draws hd =
      { a with
        state := State.Animating f (drawDistinct draws c (hd c)) e
          (now + ANIMATION_STEP_MS) } := by
  unfold App.tick
  rw [hs]
  simp [Nat.not_le.mpr hend, hns, ANSWERS]

theorem tick_animating_wait (a : App) (f c e ns now : Nat)
    (draws : Nat → Nat) (hd : FairDraws draws)
    (hs : a.state = State.Animating f c e ns) (hend : now < e)
    (hns : now < ns) :
    a.tick now draws hd = a := by
  unfold App.tick
  rw [hs]
  simp [Nat.not_le.mpr hend, Nat.not_le.mpr hns]

theorem tick_showing_expire (a : App) (i u now : Nat) (draws : Nat → Nat)
    (hd : FairDraws draws) (hs : a.state = State.Showing i u)
    (hnow : u ≤ now) :
    a.tick now draws hd = { a with state := State.Idle } := by
  unfold App.tick
  rw [hs]
  simp [hnow]

theorem tick_showing_hold (a : App) (i u now : Nat) (draws : Nat → Nat)
    (hd : FairDraws draws) (hs : a.state = State.Showing i u)
    (hnow : now < u) :
    a.tick now draws hd = a := by
  unfold App.tick
  rw [hs]
  simp [Nat.not_le.mpr hnow]

theorem on_key_cases (a : App) (key : KeyEvent) (now finalRaw : Nat)
    (draws : Nat → Nat) (hd : FairDraws draws) :
    a.on_key key now finalRaw draws hd = (a, true) ∨
    a.on_key key now finalRaw draws hd = (a.toggle_help, false) ∨
    a.on_key key now finalRaw draws hd =
      ({ a with help_visible := false }, false) ∨
    a.on_key key now finalRaw draws hd = (a, false) ∨
    a.on_key key now finalRaw draws hd = (a.ask now finalRaw draws hd, false) := by
  unfold App.on_key
  split
  · exact Or.inl rfl
  split
  · exact Or.inr (Or.inl rfl)
  split
  · split
    · exact Or.inr (Or.inr (Or.inl rfl))
    · exact Or.inl rfl
  · split
    · split
      · exact Or.inr (Or.inr (Or.inl rfl))
      · exact Or.inl rfl
    · split
      · split
        · exact Or.inr (Or.inr (Or.inl rfl))
        · exact Or.inr (Or.inr (Or.inr (Or.inr rfl)))
      · exact Or.inr (Or.inr (Or.inr (Or.inl rfl)))
  · split
    · exact Or.inr (Or.inr (Or.inl rfl))
    · exact Or.inr (Or.inr (Or.inr (Or.inr rfl)))
  · exact Or.inr (Or.inr (Or.inr (Or.inl rfl)))

theorem tick_cases (a : App) (now : Nat) (draws : Nat → Nat)
    (hd : FairDraws draws) :
    a.tick now draws hd = a ∨
    (∃ f c e ns : Nat, a.state = State.Animating f c e ns ∧ e ≤ now ∧
      a.tick now draws hd =
        { a with
          last_answer := some f
          state := State.Showing f (now + ANSWER_FLASH_MS) }) ∨
    (∃ f c e ns : Nat, a.state = State.Animating f c e ns ∧ ns ≤ now ∧
      now < e ∧
      a.tick now draws hd =
        { a with
          state := State.Animating f (drawDistinct draws c (hd c)) e
            (now + ANIMATION_STEP_MS) }) ∨
    (∃ i u : Nat, a.state = State.Showing i u ∧ u ≤ now ∧
      a.tick now draws hd = { a with state := State.Idle }) := by
  cases hs : a.state with
  | Idle => exact Or.inl (tick_idle a now draws hd hs)
  | Animating f c e ns =>
      by_cases hend : e ≤ now
      · exact Or.inr (Or.inl ⟨f, c, e, ns, rfl, hend,
          tick_animating_finish a f c e ns now draws hd hs hend⟩)
      · by_cases hns : ns ≤ now
        · exact Or.inr (Or.inr (Or.inl ⟨f, c, e, ns, rfl, hns, by omega,
            tick_animating_shuffle a f c e ns now draws hd hs hns (by omega)⟩))
        · exact Or.inl
            (tick_animating_wait a f c e ns now draws hd hs (by omega) (by omega))
  | Showing i u =>
      by_cases hu : u ≤ now
      · exact Or.inr (Or.inr (Or.inr ⟨i, u, rfl, hu,
          tick_showing_expire a i u now draws hd hs hu⟩))
      · exact Or.inl (tick_showing_hold a i u now draws hd hs (by omega))

theorem tick_anim_preserves (a : App) (now : Nat) (draws : Nat → Nat)
    (hd : FairDraws draws) (f c e ns f' c' e' ns' : Nat)
    (hs : a.state = State.Animating f c e ns)
    (h' : (a.tick now draws hd).state = State.Animating f' c' e' ns') :
    f' = f ∧ e' = e := by
  rcases tick_cases a now draws hd with h | ⟨g, d, w, m, hg, _, h⟩ |
      ⟨g, d, w, m, hg, _, _, h⟩ | ⟨i, u, hg, _, h⟩
  · rw [h, hs] at h'
    injection h' with h1 h2 h3 h4
    exact ⟨h1.symm, h3.symm⟩
  · rw [h] at h'
    simp at h'
  · rw [hg] at hs
    injection hs with e1 e2 e3 e4
    subst e1; subst e2; subst e3; subst e4
    rw [h] at h'
    simp at h'
    exact ⟨h'.1.symm, h'.2.2.1.symm⟩
  · rw [hg] at hs
    simp at hs

/-! ## Claims -/

/-- C10: applying `toggle_help` twice restores the original `help_visible`
value, and a single `toggle_help` changes only `help_visible`, leaving `state`
and `last_answer` unchanged. -/
theorem C10_toggle_help_involutive (a : App) :
    a.toggle_help.toggle_help.help_visible = a.help_visible ∧
    a.toggle_help.state = a.state ∧
    a.toggle_help.last_answer = a.last_answer := by
  refine ⟨?_, rfl, rfl⟩
  simp [App.toggle_help]

/-- C8: whenever `on_key` returns `true` (terminate), the entire `App` record
is unchanged. -/
theorem C8_terminate_leaves_app_unchanged (a : App) (key : KeyEvent)
    (now finalRaw : Nat) (draws : Nat → Nat) (hd : FairDraws draws)
    (hterm : (a.on_key key now finalRaw draws hd).2 = true) :
    (a.on_key key now finalRaw draws hd).1 = a := by
  rcases on_key_cases a key now finalRaw draws hd with h | h | h | h | h <;>
    rw [h] at hterm ⊢ <;> simp_all

/-- C8 witness: pressing `Esc` with the help overlay hidden terminates and
leaves the freshly created `App` unchanged. -/
theorem C8_witness :
    (App.new.on_key ⟨KeyCode.Esc, ⟨false, false, false⟩, KeyEventKind.Press⟩
        0 0 (fun k => k) fairDraws_id).1 = App.new :=
  C8_terminate_leaves_app_unchanged App.new
    ⟨KeyCode.Esc, ⟨false, false, false⟩, KeyEventKind.Press⟩ 0 0
    (fun k => k) fairDraws_id rfl

/-- C2 counterexample: a key-release of `Esc` (with help hidden) makes
`on_key` return `true`, not `false` — `on_key` never inspects the
press/release kind, so the claimed release filtering does not exist in the
code. -/
theorem C2_counterexample :
    (App.new.on_key ⟨KeyCode.Esc, ⟨false, false, false⟩, KeyEventKind.Release⟩
        0 0 (fun k => k) fairDraws_id).2 = true := rfl

/-- C2 (amended): `on_key` ignores the press/release kind of the event; a
key-release is processed exactly like the corresponding key-press. -/
theorem C2_kind_ignored (a : App) (code : KeyCode) (mods : KeyModifiers)
    (k1 k2 : KeyEventKind) (now finalRaw : Nat) (draws : Nat → Nat)
    (hd : FairDraws draws) :
    a.on_key ⟨code, mods, k1⟩ now finalRaw draws hd =
      a.on_key ⟨code, mods, k2⟩ now finalRaw draws hd := rfl

/-- C2 witness: a press and a release of `Esc` produce identical results on
the fresh `App`. -/
theorem C2_witness :
    App.new.on_key ⟨KeyCode.Esc, ⟨false, false, false⟩, KeyEventKind.Press⟩
        0 0 (fun k => k) fairDraws_id =
      App.new.on_key ⟨KeyCode.Esc, ⟨false, false, false⟩,
        KeyEventKind.Release⟩ 0 0 (fun k => k) fairDraws_id :=
  C2_kind_ignored App.new KeyCode.Esc ⟨false, false, false⟩
    KeyEventKind.Press KeyEventKind.Release 0 0 (fun k => k) fairDraws_id

/-- C4: `ask` at instant `now` clears `last_answer` and moves to `Animating`
with both indices in `{0,…,5}`, `current_index ≠ final_index`,
`end_at = now + 2000` and `next_switch = now`. -/
theorem C4_ask_postcondition (a : App) (now finalRaw : Nat)
    (draws : Nat → Nat) (hd : FairDraws draws) :
    (a.ask now finalRaw draws hd).last_answer = none ∧
    ∃ f c : Nat,
      (a.ask now finalRaw draws hd).state =
        State.Animating f c (now + 2000) now ∧
      f < 6 ∧ c < 6 ∧ c ≠ f := by
  rw [ask_eq]
  exact ⟨rfl, gen_range ANSWERS.length finalRaw,
    drawDistinct draws (gen_range ANSWERS.length finalRaw)
      (hd (gen_range ANSWERS.length finalRaw)),
    rfl, gen_range_lt finalRaw, drawDistinct_lt _ _ _, drawDistinct_ne _ _ _⟩

/-- C4 witness: a concrete `ask` on the fresh `App` at instant 0. -/
theorem C4_witness :
    (App.new.ask 0 3 (fun k => k) fairDraws_id).last_answer = none ∧
    ∃ f c : Nat,
      (App.new.ask 0 3 (fun k => k) fairDraws_id).state =
        State.Animating f c (0 + 2000) 0 ∧
      f < 6 ∧ c < 6 ∧ c ≠ f :=
  C4_ask_postcondition App.new 0 3 (fun k => k) fairDraws_id

/-- C7: `Esc` (any modifiers), and `q`/`Q` without Control, dismiss the help
overlay when it is visible (returning `false`) and request termination when it
is not; `Ctrl+C` requests termination regardless of `help_visible` and
`state`. -/
theorem C7_quit_keys :
    (∀ (a : App) (key : KeyEvent) (now finalRaw : Nat) (draws : Nat → Nat)
        (hd : FairDraws draws),
      (key.code = KeyCode.Esc ∨
        ((key.code = KeyCode.Char 'q' ∨ key.code = KeyCode.Char 'Q') ∧
          key.modifiers.control = false)) →
      (a.help_visible = true →
        a.on_key key now finalRaw draws hd =
          ({ a with help_visible := false }, false)) ∧
      (a.help_visible = false →
        a.on_key key now finalRaw draws hd = (a, true))) ∧
    ∀ (a : App) (key : KeyEvent) (now finalRaw : Nat) (draws : Nat → Nat)
        (hd : FairDraws draws),
      key.modifiers.control = true →
      (key.code = KeyCode.Char 'c' ∨ key.code = KeyCode.Char 'C') →
      (a.on_key key now finalRaw draws hd).2 = true := by
  constructor
  · rintro a ⟨code, mods, kind⟩ now finalRaw draws hd hcode
    rcases hcode with hc | ⟨hc, hctrl⟩
    · dsimp only at hc
      subst hc
      constructor <;> intro hv <;> simp [App.on_key, hv]
    · dsimp only at hc hctrl
      rcases hc with hc | hc <;> subst hc <;>
        (constructor <;> intro hv <;> simp [App.on_key, hv, hctrl])
  · intro a key now finalRaw draws hd hctrl hcode
    unfold App.on_key
    rw [if_pos ⟨hctrl, hcode⟩]

/-- C7 witness: `Ctrl+C` terminates on the fresh `App`, and `Esc` with help
hidden terminates without modifying the record. -/
theorem C7_witness :
    ((App.new.on_key ⟨KeyCode.Char 'c', ⟨false, true, false⟩,
        KeyEventKind.Press⟩ 0 0 (fun k => k) fairDraws_id).2 = true) ∧
    App.new.on_key ⟨KeyCode.Esc, ⟨false, false, false⟩, KeyEventKind.Press⟩
        0 0 (fun k => k) fairDraws_id = (App.new, true) :=
  ⟨C7_quit_keys.2 App.new ⟨KeyCode.Char 'c', ⟨false, true, false⟩,
      KeyEventKind.Press⟩ 0 0 (fun k => k) fairDraws_id rfl (Or.inl rfl),
    (C7_quit_keys.1 App.new ⟨KeyCode.Esc, ⟨false, false, false⟩,
        KeyEventKind.Press⟩ 0 0 (fun k => k) fairDraws_id (Or.inl rfl)).2 rfl⟩

/-- C5: a tick in the shuffle window (`next_switch ≤ now < end_at`) moves
`current_index` to a different value, keeps `final_index` and `end_at`, and
reschedules `next_switch` to `now + 120`; moreover any tick that stays in
`Animating` preserves `final_index` and `end_at`, so `end_at` is invariant
across all shuffle steps of one `ask`. -/
theorem C5_shuffle_step :
    (∀ (a : App) (f c e ns now : Nat) (draws : Nat → Nat)
        (hd : FairDraws draws),
      a.state = State.Animating f c e ns → ns ≤ now → now < e →
      ∃ c' : Nat,
        (a.tick now draws hd).state = State.Animating f c' e (now + 120) ∧
        c' ≠ c) ∧
    ∀ (a : App) (now : Nat) (draws : Nat → Nat) (hd : FairDraws draws)
        (f c e ns f' c' e' ns' : Nat),
      a.state = State.Animating f c e ns →
      (a.tick now draws hd).state = State.Animating f' c' e' ns' →
      f' = f ∧ e' = e := by
  constructor
  · intro a f c e ns now draws hd hs hns hend
    rw [tick_animating_shuffle a f c e ns now draws hd hs hns hend]
    exact ⟨drawDistinct draws c (hd c), rfl, drawDistinct_ne _ _ _⟩
  · exact fun a now draws hd f c e ns f' c' e' ns' hs h' =>
      tick_anim_preserves a now draws hd f c e ns f' c' e' ns' hs h'

/-- C5 witness: a concrete shuffle step at instant 0 on an `Animating` state
created with `final_index = 3`, `current_index = 1`. -/
theorem C5_witness :
    ∃ c' : Nat,
      (({ state := State.Animating 3 1 2000 0, help_visible := false,
            last_answer := none } : App).tick 0 (fun k => k)
          fairDraws_id).state = State.Animating 3 c' 2000 (0 + 120) ∧
      c' ≠ 1 :=
  C5_shuffle_step.1
    { state := State.Animating 3 1 2000 0, help_visible := false,
      last_answer := none } 3 1 2000 0 0 (fun k => k) fairDraws_id rfl
    (by decide) (by decide)

/-- C1 counterexample: starting from the fresh `App`, an `ask` at instant 0
drawing `final_index = 3`, `current_index = 1`, followed by one shuffle-step
tick at instant 0 whose draw is 3, reaches an `Animating` state with
`current_index = final_index = 3` even though `N = 6 > 1` — the shuffle step
only avoids the previous `current_index`, not `final_index`. -/
theorem C1_counterexample :
    ((App.new.ask 0 3 (fun k => if k = 0 then 1 else k)
          (fairDraws_pair (fun k => if k = 0 then 1 else k) rfl rfl)).tick 0
        (fun k => if k = 0 then 3 else k)
        (fairDraws_pair (fun k => if k = 0 then 3 else k) rfl rfl)).state =
      State.Animating 3 3 2000 120 := by
  have h1 : App.new.ask 0 3 (fun k => if k = 0 then 1 else k)
      (fairDraws_pair (fun k => if k = 0 then 1 else k) rfl rfl) =
      { state := State.Animating 3 1 2000 0, help_visible := false,
        last_answer := none } := by
    rw [ask_eq, drawDistinct_first _ _ _ (by decide)]
    rfl
  rw [h1]
  rw [tick_animating_shuffle _ 3 1 2000 0 0 _ _ rfl (by decide) (by decide)]
  rw [drawDistinct_first _ _ _ (by decide)]
  rfl

/-- C1 (amended): at `ask` time `current_index ≠ final_index` (for `N > 1`),
and each shuffle step picks a new `current_index ≠` the previous
`current_index`; during shuffling `current_index` may transiently equal
`final_index`. -/
theorem C1_distinct_indices :
    (∀ (a : App) (now finalRaw : Nat) (draws : Nat → Nat)
        (hd : FairDraws draws) (f c e ns : Nat),
      1 < ANSWERS.length →
      (a.ask now finalRaw draws hd).state = State.Animating f c e ns →
      c ≠ f) ∧
    ∀ (a : App) (f c e ns now : Nat) (draws : Nat → Nat)
        (hd : FairDraws draws) (f' c' e' ns' : Nat),
      a.state = State.Animating f c e ns → ns ≤ now → now < e →
      (a.tick now draws hd).state = State.Animating f' c' e' ns' →
      c' ≠ c := by
  constructor
  · intro a now finalRaw draws hd f c e ns _ h'
    rw [ask_eq] at h'
    simp only [App.mk.injEq] at h'
    injection h' with h1 h2 h3 h4
    subst h1
    subst h2
    exact drawDistinct_ne _ _ _
  · intro a f c e ns now draws hd f' c' e' ns' hs hns hend h'
    rw [tick_animating_shuffle a f c e ns now draws hd hs hns hend] at h'
    injection h' with h1 h2 h3 h4
    subst h2
    exact drawDistinct_ne _ _ _

/-- C1 witness: a concrete `ask` whose animation starts at
`current_index = 1 ≠ 3 = final_index`. -/
theorem C1_witness : (1 : Nat) ≠ 3 :=
  C1_distinct_indices.1 App.new 0 3 (fun k => if k = 0 then 1 else k)
    (fairDraws_pair (fun k => if k = 0 then 1 else k) rfl rfl) 3 1 2000 0
    (by decide) (by rw [ask_eq, drawDistinct_first _ _ _ (by decide)]; rfl)

/-- C3: a tick at `now ≥ end_at` sets `last_answer = some final_index` and
moves to `Showing final_index (now + 1500)`; under any single step (`tick` or
`on_key`) a `Showing` state is entered only from an `Animating` state whose
`final_index` equals the shown index; and while `Animating`, ticks preserve
`final_index` (so the shown index is the one chosen at `ask` time). -/
theorem C3_showing_entry :
    (∀ (a : App) (f c e ns now : Nat) (draws : Nat → Nat)
        (hd : FairDraws draws),
      a.state = State.Animating f c e ns → e ≤ now →
      (a.tick now draws hd).last_answer = some f ∧
      (a.tick now draws hd).state = State.Showing f (now + 1500)) ∧
    (∀ a a' : App, Step a a' → ∀ i u : Nat, a'.state = State.Showing i u →
      a.state = State.Showing i u ∨
      ∃ c e ns : Nat, a.state = State.Animating i c e ns) ∧
    ∀ (a : App) (now : Nat) (draws : Nat → Nat) (hd : FairDraws draws)
        (f c e ns f' c' e' ns' : Nat),
      a.state = State.Animating f c e ns →
      (a.tick now draws hd).state = State.Animating f' c' e' ns' →
      f' = f ∧ e' = e := by
  refine ⟨?_, ?_, fun a now draws hd f c e ns f' c' e' ns' hs h' =>
    tick_anim_preserves a now draws hd f c e ns f' c' e' ns' hs h'⟩
  · intro a f c e ns now draws hd hs hend
    rw [tick_animating_finish a f c e ns now draws hd hs hend]
    exact ⟨rfl, rfl⟩
  · intro a a' hstep i u h'
    cases hstep with
    | tick now draws hd =>
        rcases tick_cases a now draws hd with h | ⟨f, c, e, ns, hg, _, h⟩ |
            ⟨f, c, e, ns, hg, _, _, h⟩ | ⟨j, v, hg, _, h⟩
        · rw [h] at h'
          exact Or.inl h'
        · rw [h] at h'
          simp only [App.mk.injEq] at h'
          injection h' with h1 h2
          subst h1
          exact Or.inr ⟨c, e, ns, hg⟩
        · rw [h] at h'
          simp at h'
        · rw [h] at h'
          simp at h'
    | key k now finalRaw draws hd =>
        rcases on_key_cases a k now finalRaw draws hd with h | h | h | h | h
        · rw [h] at h'
          exact Or.inl h'
        · rw [h] at h'
          exact Or.inl h'
        · rw [h] at h'
          exact Or.inl h'
        · rw [h] at h'
          exact Or.inl h'
        · rw [h, ask_eq] at h'
          simp at h'

/-- C3 witness: the animation started with `final_index = 3` finishes at
instant 2000 showing answer 3 until instant 3500. -/
theorem C3_witness :
    (({ state := State.Animating 3 1 2000 0, help_visible := false,
          last_answer := none } : App).tick 2000 (fun k => k)
        fairDraws_id).last_answer = some 3 ∧
    (({ state := State.Animating 3 1 2000 0, help_visible := false,
          last_answer := none } : App).tick 2000 (fun k => k)
        fairDraws_id).state = State.Showing 3 (2000 + 1500) :=
  C3_showing_entry.1
    { state := State.Animating 3 1 2000 0, help_visible := false,
      last_answer := none } 3 1 2000 0 2000 (fun k => k) fairDraws_id rfl
    (by decide)

/-- C6: across `tick` and `on_key` steps, `last_answer` changes only at an
`Animating → Showing` transition (to `some final_index`) or at an `ask`
(to `none`); ticks in `Showing` and `toggle_help` leave it unchanged. -/
theorem C6_last_answer_monotone :
    (∀ a a' : App, Step a a' → a'.last_answer ≠ a.last_answer →
      (∃ f : Nat, a'.last_answer = some f ∧
        (∃ c e ns : Nat, a.state = State.Animating f c e ns) ∧
        ∃ u : Nat, a'.state = State.Showing f u) ∨
      (a'.last_answer = none ∧
        ∃ f c e ns : Nat, a'.state = State.Animating f c e ns)) ∧
    (∀ (a : App) (i u now : Nat) (draws : Nat → Nat) (hd : FairDraws draws),
      a.state = State.Showing i u →
      (a.tick now draws hd).last_answer = a.last_answer) ∧
    ∀ a : App, a.toggle_help.last_answer = a.last_answer := by
  refine ⟨?_, ?_, fun a => rfl⟩
  · intro a a' hstep hne
    cases hstep with
    | tick now draws hd =>
        rcases tick_cases a now draws hd with h | ⟨f, c, e, ns, hg, _, h⟩ |
            ⟨f, c, e, ns, hg, _, _, h⟩ | ⟨i, u, hg, _, h⟩
        · rw [h] at hne
          exact absurd rfl hne
        · rw [h]
          exact Or.inl ⟨f, rfl, ⟨c, e, ns, hg⟩, now + ANSWER_FLASH_MS, rfl⟩
        · rw [h] at hne
          exact absurd rfl hne
        · rw [h] at hne
          exact absurd rfl hne
    | key k now finalRaw draws hd =>
        rcases on_key_cases a k now finalRaw draws hd with h | h | h | h | h
        · rw [h] at hne
          exact absurd rfl hne
        · rw [h] at hne
          exact absurd rfl hne
        · rw [h] at hne
          exact absurd rfl hne
        · rw [h] at hne
          exact absurd rfl hne
        · rw [h, ask_eq]
          exact Or.inr ⟨rfl, gen_range ANSWERS.length finalRaw, _, _, _, rfl⟩
  · intro a i u now draws hd hs
    rcases tick_cases a now draws hd with h | ⟨f, c, e, ns, hg, _, h⟩ |
        ⟨f, c, e, ns, hg, _, _, h⟩ | ⟨j, v, hg, _, h⟩
    · rw [h]
    · rw [hg] at hs
      simp at hs
    · rw [hg] at hs
      simp at hs
    · rw [h]

/-- C6 witness: the tick crossing `end_at` changes `last_answer` from `none`
to `some 3` via the `Animating → Showing` transition. -/
theorem C6_witness :
    (∃ f : Nat,
      (({ state := State.Animating 3 1 2000 0, help_visible := false,
            last_answer := none } : App).tick 2000 (fun k => k)
          fairDraws_id).last_answer = some f ∧
      (∃ c e ns : Nat,
        ({ state := State.Animating 3 1 2000 0, help_visible := false,
            last_answer := none } : App).state =
          State.Animating f c e ns) ∧
      ∃ u : Nat,
        (({ state := State.Animating 3 1 2000 0, help_visible := false,
              last_answer := none } : App).tick 2000 (fun k => k)
            fairDraws_id).state = State.Showing f u) ∨
    ((({ state := State.Animating 3 1 2000 0, help_visible := false,
           last_answer := none } : App).tick 2000 (fun k => k)
         fairDraws_id).last_answer = none ∧
      ∃ f c e ns : Nat,
        (({ state := State.Animating 3 1 2000 0, help_visible := false,
              last_answer := none } : App).tick 2000 (fun k => k)
            fairDraws_id).state = State.Animating f c e ns) :=
  C6_last_answer_monotone.1
    { state := State.Animating 3 1 2000 0, help_visible := false,
      last_answer := none }
    (({ state := State.Animating 3 1 2000 0, help_visible := false,
        last_answer := none } : App).tick 2000 (fun k => k) fairDraws_id)
    (Step.tick
      { state := State.Animating 3 1 2000 0, help_visible := false,
        last_answer := none } 2000 (fun k => k) fairDraws_id)
    (by decide)

theorem render_buttons_active (a : App) (i : Nat)
    (hi : i < (render_buttons a).length) :
    ((render_buttons a).get ⟨i, hi⟩).active =
      (active_index a.state == some i) := by
  have h6 : i < 6 := by simpa [render_buttons] using hi
  interval_cases i <;> rfl

/-- C9: cell `i` of the button grid is rendered active iff `i` equals the lit
index of the current state: `current_index` while `Animating`, `index` while
`Showing`, and no cell while `Idle`. -/
theorem C9_active_cell (a : App) (i : Nat)
    (hi : i < (render_buttons a).length) :
    ((render_buttons a).get ⟨i, hi⟩).active = true ↔
      (match a.state with
       | State.Animating _ c _ _ => i = c
       | State.Showing j _ => i = j
       | State.Idle => False) := by
  rw [render_buttons_active a i hi]
  cases hs : a.state with
  | Idle => simp [active_index]
  | Animating f c e ns =>
      simp only [active_index, beq_iff_eq, Option.some.injEq]
      exact eq_comm
  | Showing j u =>
      simp only [active_index, beq_iff_eq, Option.some.injEq]
      exact eq_comm

/-- C9 witness: on the fresh (idle) `App`, cell 0 is not active. -/
theorem C9_witness :
    ((render_buttons App.new).get ⟨0, by decide⟩).active = true ↔ False :=
  C9_active_cell App.new 0 (by decide)
